import Mathlib

/-!
Verification of the documentation-drift core of the drift-vscode
extension: a shallow embedding of the drift analyzer
(src/analyzers/driftAnalyzer.ts), the shared string/matching helpers
(src/utils/helpers.ts), the Go grouped-parameter extraction
(src/parsers/goParser.ts), and the parser registry dispatch
(src/parsers/parserRegistry.ts), together with theorems about the
properties the specification states for them.
-/

set_option autoImplicit false

namespace DriftSpec

/-! ## Data model (src/models/types.ts) -/

/-- Drift reason category tags, mirroring the `DriftType` enum. -/
inductive DriftType where
  | parameterMismatch
  | parameterAdded
  | parameterRemoved
  | parameterRenamed
  | returnTypeMismatch
  | signatureChanged
  | codeContentChanged
  | descriptionMismatch
  | missingDocumentation
  | orphanedDocumentation
  | deprecatedReference
  deriving DecidableEq

/-- Severities, mirroring the `DriftSeverity` enum. -/
inductive DriftSeverity where
  | low
  | medium
  | high
  | critical
  deriving DecidableEq

/-- One classified mismatch, mirroring the `DriftReason` interface. -/
structure DriftReason where
  type : DriftType
  severity : DriftSeverity
  message : String
  details : Option String
  deriving DecidableEq

/-- A code-side parameter, mirroring the `ParameterInfo` interface. -/
structure ParameterInfo where
  name : String
  type : Option String
  defaultValue : Option String
  isOptional : Bool
  isRest : Bool
  deriving DecidableEq

/-- A documented parameter, mirroring the `DocParam` interface. -/
structure DocParam where
  name : String
  type : Option String
  description : String
  isOptional : Bool
  deriving DecidableEq

/-- A documented return, mirroring the `DocReturn` interface. -/
structure DocReturn where
  type : Option String
  description : String
  deriving DecidableEq

/-- The parts of the `ParsedDoc` interface that the analyzer reads. -/
structure ParsedDoc where
  description : String
  params : List DocParam
  returns : Option DocReturn
  deriving DecidableEq

/-- The parts of the `CodeSignature` interface that parameter and return
analysis read (the content hash is modelled separately below). -/
structure CodeSignature where
  name : String
  parameters : List ParameterInfo
  returnType : Option String
  deriving DecidableEq

/-! ## String helpers (src/utils/helpers.ts) -/

/-- Lowercasing as JavaScript `toLowerCase` acts on identifier
characters, applied characterwise. -/
def toLowerStr (s : String) : String :=
  String.mk (s.data.map Char.toLower)

/-- Collapse every maximal run of whitespace characters into a single
space, the effect of `str.replace(/\s+/g, ' ')`.  The flag records
whether the previous character was part of a whitespace run. -/
def collapseWsAux : Bool → List Char → List Char
  | _, [] => []
  | prevWs, c :: cs =>
    if c.isWhitespace then
      if prevWs then collapseWsAux true cs
      else ' ' :: collapseWsAux true cs
    else c :: collapseWsAux false cs

/-- JavaScript `trim`: drop whitespace from both ends. -/
def trimChars (l : List Char) : List Char :=
  ((l.dropWhile Char.isWhitespace).reverse.dropWhile Char.isWhitespace).reverse

/-- `normalizeWhitespace` from helpers.ts:
`str.replace(/\s+/g, ' ').trim()`. -/
def normalizeWhitespace (str : String) : String :=
  String.mk (trimChars (collapseWsAux false str.data))

/-- One row of the `levenshteinDistance` dynamic-programming table
(helpers.ts): given the character `x = str1[i-1]`, the remaining
characters of `str2`, the previous row from column `j - 1` onward, and
the entry `dp[i][j-1]` just computed to the left, produce the entries
`dp[i][j], dp[i][j+1], ...` by
`dp[i][j] = dp[i-1][j-1]` when `x == str2[j-1]` and
`1 + min (dp[i-1][j]) (min (dp[i][j-1]) (dp[i-1][j-1]))` otherwise. -/
def levRowAux (x : Char) : List Char → List Nat → Nat → List Nat
  | [], _, _ => []
  | y :: ys, prev, left =>
    match prev with
    | [] => []
    | diag :: rest =>
      let above := rest.headD 0
      let cur := if x = y then diag else 1 + min above (min left diag)
      cur :: levRowAux x ys rest cur

/-- `levenshteinDistance` from helpers.ts: fill the table row by row
(row 0 is `0, 1, ..., n`; each row `i` starts with `dp[i][0] = i`) and
return the final entry `dp[m][n]`. -/
def levenshteinDistance (str1 str2 : String) : Nat :=
  let ys := str2.data
  let firstRow := List.range (ys.length + 1)
  let lastRow := (str1.data.foldl
    (fun (st : List Nat × Nat) x =>
      let i := st.2 + 1
      (i :: levRowAux x ys st.1 i, i))
    (firstRow, 0)).1
  lastRow.getLastD 0

/-- The loop body of `findClosestMatch` in helpers.ts: replace the
running best only on a strictly smaller distance. -/
def closestStep (target : String) (best : String × Nat) (cand : String) :
    String × Nat :=
  let d := levenshteinDistance target cand
  if d < best.2 then (cand, d) else best

/-- `findClosestMatch` from helpers.ts: start from the first candidate
and scan the rest with `closestStep`; `null` on an empty list. -/
def findClosestMatch (target : String) (candidates : List String) :
    Option (String × Nat) :=
  match candidates with
  | [] => none
  | c :: rest =>
    some (rest.foldl (closestStep target) (c, levenshteinDistance target c))

/-- JavaScript `hay.includes(needle)`: `needle` occurs contiguously in
`hay`. -/
def strIncludes (hay needle : String) : Bool :=
  (List.range (hay.data.length + 1)).any
    (fun i => (hay.data.drop i).take needle.data.length == needle.data)

/-! ## Drift analyzer (src/analyzers/driftAnalyzer.ts) -/

/-- The `typeAliases` table of `DriftAnalyzer.typesMatch`, in the
`Object.values` order of the source object literal. -/
def typeAliasClasses : List (List String) :=
  [["str", "string"],
   ["int", "float", "number", "integer"],
   ["bool", "boolean"],
   ["list", "array", "[]"],
   ["dict", "object", "map", "record"],
   ["any", "object", "unknown"],
   ["void", "none", "null", "undefined"]]

/-- `DriftAnalyzer.typesMatch`: direct equality, then one shared alias
class, then substring containment either way. -/
def typesMatch (docType codeType : String) : Bool :=
  if docType = codeType then true
  else if typeAliasClasses.any
      (fun aliases => aliases.contains docType && aliases.contains codeType) then true
  else if strIncludes docType codeType || strIncludes codeType docType then true
  else false

/-- The `ParameterRenamed` reason built in `analyzeParameters`. -/
def renamedReason (docName m : String) : DriftReason :=
  { type := DriftType.parameterRenamed
    severity := DriftSeverity.medium
    message := "Parameter \x27" ++ docName ++ "\x27 may have been renamed to \x27" ++ m ++ "\x27"
    details := some ("Documentation mentions \x27" ++ docName ++ "\x27 but code has \x27" ++ m ++ "\x27") }

/-- The `ParameterRemoved` reason built in `analyzeParameters`. -/
def removedReason (docName : String) : DriftReason :=
  { type := DriftType.parameterRemoved
    severity := DriftSeverity.high
    message := "Documented parameter \x27" ++ docName ++ "\x27 not found in code"
    details := some "The documentation describes a parameter that doesn\x27t exist in the current function signature" }

/-- The `ParameterAdded` reason built in `analyzeParameters`. -/
def addedReason (codeName : String) : DriftReason :=
  { type := DriftType.parameterAdded
    severity := DriftSeverity.medium
    message := "Parameter \x27" ++ codeName ++ "\x27 is not documented"
    details := some ("The code has a parameter \x27" ++ codeName ++ "\x27 that isn\x27t described in the documentation") }

/-- The `ParameterMismatch` reason built in `analyzeParameters`. -/
def mismatchReason (docName docTy codeTy : String) : DriftReason :=
  { type := DriftType.parameterMismatch
    severity := DriftSeverity.medium
    message := "Type mismatch for parameter \x27" ++ docName ++ "\x27"
    details := some ("Documentation says \x27" ++ docTy ++ "\x27 but code has \x27" ++ codeTy ++ "\x27") }

/-- The lowercased documented parameter names
(`doc.params.map(p => p.name.toLowerCase())`). -/
def docParamNamesOf (doc : ParsedDoc) : List String :=
  doc.params.map (fun p => toLowerStr p.name)

/-- The lowercased code parameter names with the implicit receivers
`self`/`cls` filtered out. -/
def codeParamNamesOf (signature : CodeSignature) : List String :=
  (signature.parameters.filter
    (fun p => !((["self", "cls"] : List String).contains (toLowerStr p.name)))).map
    (fun p => toLowerStr p.name)

/-- Body of the first `analyzeParameters` loop: for one documented
parameter, the `ParameterRenamed`/`ParameterRemoved` reason it pushes,
if any. -/
def docAbsentReason (codeParamNames : List String) (docParam : DocParam) :
    Option DriftReason :=
  let paramName := toLowerStr docParam.name
  if (["self", "cls"] : List String).contains paramName then none
  else if codeParamNames.contains paramName then none
  else
    match findClosestMatch paramName codeParamNames with
    | some closest =>
      if closest.2 ≤ 2 then some (renamedReason docParam.name closest.1)
      else some (removedReason docParam.name)
    | none => some (removedReason docParam.name)

/-- Body of the second `analyzeParameters` loop: for one code
parameter, the `ParameterAdded` reason it pushes, if any. -/
def codeUndocumentedReason (docParamNames : List String)
    (codeParam : ParameterInfo) : Option DriftReason :=
  let paramName := toLowerStr codeParam.name
  if (["self", "cls"] : List String).contains paramName then none
  else if docParamNames.contains paramName then none
  else if codeParam.name.length > 1 then some (addedReason codeParam.name)
  else none

/-- Body of the third `analyzeParameters` loop: for one documented
parameter, the `ParameterMismatch` reason it pushes, if any.  The
emptiness guards reflect JavaScript truthiness of
`docParam.type && codeParam.type`. -/
def typeMismatchReason (signature : CodeSignature) (docParam : DocParam) :
    Option DriftReason :=
  match signature.parameters.find?
      (fun p => toLowerStr p.name == toLowerStr docParam.name) with
  | some codeParam =>
    match docParam.type, codeParam.type with
    | some dt, some ct =>
      if dt = "" ∨ ct = "" then none
      else if typesMatch (normalizeWhitespace (toLowerStr dt))
          (normalizeWhitespace (toLowerStr ct)) then none
      else some (mismatchReason docParam.name dt ct)
    | _, _ => none
  | none => none

/-- `DriftAnalyzer.analyzeParameters`: the three loops push their
reasons in source order. -/
def analyzeParameters (doc : ParsedDoc) (signature : CodeSignature) :
    List DriftReason :=
  doc.params.filterMap (docAbsentReason (codeParamNamesOf signature))
    ++ signature.parameters.filterMap (codeUndocumentedReason (docParamNamesOf doc))
    ++ doc.params.filterMap (typeMismatchReason signature)

/-- The fixed base weight per reason category in
`DriftAnalyzer.calculateDriftScore` (`paramMismatchWeight = 0.4`,
`returnTypeMismatchWeight = 0.2`, `signatureChangeWeight = 0.25`,
`descriptionMismatchWeight = 0.15`, default `0.1`). -/
def baseWeight : DriftType → ℚ
  | DriftType.parameterMismatch => 4/10
  | DriftType.parameterAdded => 4/10
  | DriftType.parameterRemoved => 4/10
  | DriftType.parameterRenamed => 4/10
  | DriftType.returnTypeMismatch => 2/10
  | DriftType.signatureChanged => 25/100
  | DriftType.codeContentChanged => 25/100
  | DriftType.descriptionMismatch => 15/100
  | _ => 1/10

/-- The severity multiplier applied to the base weight in
`calculateDriftScore`. -/
def severityMultiplier : DriftSeverity → ℚ
  | DriftSeverity.critical => 15/10
  | DriftSeverity.high => 12/10
  | DriftSeverity.medium => 1
  | DriftSeverity.low => 5/10

/-- `DriftAnalyzer.calculateDriftScore`: 0 for an empty list, else the
accumulated weighted severities clamped by `Math.min(1, score)`. -/
def calculateDriftScore (reasons : List DriftReason) : ℚ :=
  if reasons.isEmpty then 0
  else
    min 1 (reasons.foldl
      (fun score reason =>
        score + baseWeight reason.type * severityMultiplier reason.severity)
      0)

/-! ## Content hash (src/utils/helpers.ts `hashContent`)

`hashContent` is `crypto.createHash('md5').update(content).digest('hex')`:
the MD5 digest, in lowercase hexadecimal, of the UTF-8 bytes of the
content.  MD5 is modelled below from its public definition (RFC 1321),
over `Nat` with explicit reduction modulo `2 ^ 32`. -/

/-- UTF-8 encoding of one Unicode scalar value, as byte values. -/
def utf8BytesOfChar (c : Char) : List Nat :=
  let n := c.toNat
  if n < 128 then [n]
  else if n < 2048 then [192 + n / 64, 128 + n % 64]
  else if n < 65536 then [224 + n / 4096, 128 + n / 64 % 64, 128 + n % 64]
  else [240 + n / 262144, 128 + n / 4096 % 64, 128 + n / 64 % 64, 128 + n % 64]

/-- UTF-8 bytes of a string. -/
def utf8Bytes (s : String) : List Nat :=
  s.data.flatMap utf8BytesOfChar

/-- Addition modulo `2 ^ 32`. -/
def add32 (a b : Nat) : Nat :=
  (a + b) % 4294967296

/-- Bitwise complement within 32 bits (argument assumed `< 2 ^ 32`). -/
def not32 (a : Nat) : Nat :=
  4294967295 - a

/-- Left rotation of a 32-bit word by `s` places. -/
def rotl32 (x s : Nat) : Nat :=
  ((x <<< s) % 4294967296) ||| (x >>> (32 - s))

/-- The 64 MD5 sine-derived constants `K[i] = floor(2^32 * abs(sin(i + 1)))`. -/
def md5K : List Nat :=
  [0xd76aa478, 0xe8c7b756, 0x242070db, 0xc1bdceee,
   0xf57c0faf, 0x4787c62a, 0xa8304613, 0xfd469501,
   0x698098d8, 0x8b44f7af, 0xffff5bb1, 0x895cd7be,
   0x6b901122, 0xfd987193, 0xa679438e, 0x49b40821,
   0xf61e2562, 0xc040b340, 0x265e5a51, 0xe9b6c7aa,
   0xd62f105d, 0x02441453, 0xd8a1e681, 0xe7d3fbc8,
   0x21e1cde6, 0xc33707d6, 0xf4d50d87, 0x455a14ed,
   0xa9e3e905, 0xfcefa3f8, 0x676f02d9, 0x8d2a4c8a,
   0xfffa3942, 0x8771f681, 0x6d9d6122, 0xfde5380c,
   0xa4beea44, 0x4bdecfa9, 0xf6bb4b60, 0xbebfbc70,
   0x289b7ec6, 0xeaa127fa, 0xd4ef3085, 0x04881d05,
   0xd9d4d039, 0xe6db99e5, 0x1fa27cf8, 0xc4ac5665,
   0xf4292244, 0x432aff97, 0xab9423a7, 0xfc93a039,
   0x655b59c3, 0x8f0ccc92, 0xffeff47d, 0x85845dd1,
   0x6fa87e4f, 0xfe2ce6e0, 0xa3014314, 0x4e0811a1,
   0xf7537e82, 0xbd3af235, 0x2ad7d2bb, 0xeb86d391]

/-- The 64 MD5 per-round left-rotation amounts. -/
def md5S : List Nat :=
  [7, 12, 17, 22, 7, 12, 17, 22, 7, 12, 17, 22, 7, 12, 17, 22,
   5, 9, 14, 20, 5, 9, 14, 20, 5, 9, 14, 20, 5, 9, 14, 20,
   4, 11, 16, 23, 4, 11, 16, 23, 4, 11, 16, 23, 4, 11, 16, 23,
   6, 10, 15, 21, 6, 10, 15, 21, 6, 10, 15, 21, 6, 10, 15, 21]

/-- Group a byte list into 32-bit little-endian words. -/
def bytesToWordsLE : List Nat → List Nat
  | b0 :: b1 :: b2 :: b3 :: rest =>
    (b0 + b1 * 256 + b2 * 65536 + b3 * 16777216) :: bytesToWordsLE rest
  | _ => []

/-- The eight little-endian bytes of a 64-bit length value. -/
def le8Bytes (n : Nat) : List Nat :=
  [n % 256, n / 256 % 256, n / 65536 % 256, n / 16777216 % 256,
   n / 4294967296 % 256, n / 1099511627776 % 256,
   n / 281474976710656 % 256, n / 72057594037927936 % 256]

/-- MD5 padding: a `0x80` byte, zeros to 56 mod 64, then the original
bit length as a 64-bit little-endian quantity. -/
def md5Pad (bytes : List Nat) : List Nat :=
  let len := bytes.length
  let zeroCount := (120 - (len + 1) % 64) % 64
  bytes ++ [128] ++ List.replicate zeroCount 0 ++ le8Bytes ((len * 8) % 18446744073709551616)

/-- One MD5 round `i` applied to the working state `(a, b, c, d)` with
message words `w`. -/
def md5Round (w : List Nat) (st : Nat × Nat × Nat × Nat) (i : Nat) :
    Nat × Nat × Nat × Nat :=
  let a := st.1
  let b := st.2.1
  let c := st.2.2.1
  let d := st.2.2.2
  let fg : Nat × Nat :=
    if i < 16 then ((b &&& c) ||| (not32 b &&& d), i)
    else if i < 32 then ((d &&& b) ||| (not32 d &&& c), (5 * i + 1) % 16)
    else if i < 48 then (b ^^^ c ^^^ d, (3 * i + 5) % 16)
    else (c ^^^ (b ||| not32 d), (7 * i) % 16)
  let f := add32 (add32 (add32 fg.1 a) (md5K.getD i 0)) (w.getD fg.2 0)
  (d, add32 b (rotl32 f (md5S.getD i 0)), b, c)

/-- Process one 64-byte chunk, updating the MD5 state. -/
def md5ProcessChunk (chunk : List Nat) (st : Nat × Nat × Nat × Nat) :
    Nat × Nat × Nat × Nat :=
  let w := bytesToWordsLE chunk
  let r := (List.range 64).foldl (md5Round w) st
  (add32 st.1 r.1, add32 st.2.1 r.2.1, add32 st.2.2.1 r.2.2.1,
   add32 st.2.2.2 r.2.2.2)

/-- Split a byte list into successive 64-byte chunks.  The first
argument is fuel (any bound on the number of chunks, e.g. the byte
count). -/
def splitChunks : Nat → List Nat → List (List Nat)
  | 0, _ => []
  | _, [] => []
  | fuel + 1, b :: rest => (b :: rest).take 64 :: splitChunks fuel ((b :: rest).drop 64)

/-- Process a padded message 64 bytes at a time. -/
def md5ProcessChunks (bytes : List Nat) (st : Nat × Nat × Nat × Nat) :
    Nat × Nat × Nat × Nat :=
  (splitChunks bytes.length bytes).foldl (fun s chunk => md5ProcessChunk chunk s) st

/-- A lowercase hexadecimal digit. -/
def hexDigit (n : Nat) : Char :=
  if n < 10 then Char.ofNat (48 + n) else Char.ofNat (87 + n)

/-- Two lowercase hex digits of one byte value. -/
def byteHex (n : Nat) : String :=
  String.mk [hexDigit (n / 16 % 16), hexDigit (n % 16)]

/-- Hex rendering of a 32-bit word, little-endian byte order, as in an
MD5 digest. -/
def wordHexLE (n : Nat) : String :=
  byteHex (n % 256) ++ byteHex (n / 256 % 256) ++ byteHex (n / 65536 % 256)
    ++ byteHex (n / 16777216 % 256)

/-- MD5 digest of a byte list, as a lowercase hex string. -/
def md5Hex (bytes : List Nat) : String :=
  let st := md5ProcessChunks (md5Pad bytes)
    (0x67452301, 0xefcdab89, 0x98badcfe, 0x10325476)
  wordHexLE st.1 ++ wordHexLE st.2.1 ++ wordHexLE st.2.2.1 ++ wordHexLE st.2.2.2

/-- `hashContent` from helpers.ts: the hex MD5 digest of the content
bytes. -/
def hashContent (content : String) : String :=
  md5Hex (utf8Bytes content)

/-- The `hash` field produced by `TypeScriptParser.extractCodeSignature`
(typescriptParser.ts): `hashContent(content)` applied to the raw
declaration content. -/
def tsSignatureHash (content : String) : String :=
  hashContent content

/-- The `hash` field produced by `PythonParser.extractCodeSignature`
(pythonParser.ts): `hashContent(content)` applied to the raw
declaration content. -/
def pySignatureHash (content : String) : String :=
  hashContent content

/-! ## Go grouped parameters (src/parsers/goParser.ts `parseGoParams`) -/

/-- One parameter record pushed by `parseGoParams` (a plain
`{name, type}` object in the source). -/
structure GoParam where
  name : String
  type : String
  deriving DecidableEq

/-- JavaScript `String.split(',')`. -/
def splitCommaAux : List Char → List Char → List String
  | [], acc => [String.mk acc.reverse]
  | c :: cs, acc =>
    if c = ',' then String.mk acc.reverse :: splitCommaAux cs []
    else splitCommaAux cs (c :: acc)

/-- Split a string at every comma. -/
def splitComma (s : String) : List String :=
  splitCommaAux s.data []

/-- JavaScript `trim` on strings. -/
def trimStr (s : String) : String :=
  String.mk (trimChars s.data)

/-- JavaScript `lastIndexOf(c)`: the greatest index holding `c`, if
any. -/
def lastIndexOfChar (c : Char) (l : List Char) : Option Nat :=
  match l.reverse.findIdx? (fun d => d == c) with
  | some i => some (l.length - 1 - i)
  | none => none

/-- `GoParser.parseGoParams`: split on commas; a part with a space is a
`name type` pair whose type also applies to every pending bare name
before it; a part without a space is a pending bare name. -/
def parseGoParams (paramsStr : String) : List GoParam :=
  let parts := splitComma paramsStr
  (parts.foldl
    (fun (acc : List GoParam × List String) part =>
      let trimmed := trimStr part
      match lastIndexOfChar ' ' trimmed.data with
      | some spaceIndex =>
        let possibleName := trimStr (String.mk (trimmed.data.take spaceIndex))
        let ty := trimStr (String.mk (trimmed.data.drop (spaceIndex + 1)))
        let pending := acc.2 ++ [possibleName]
        (acc.1 ++ pending.map (fun n => { name := n, type := ty }), [])
      | none => (acc.1, acc.2 ++ [trimmed]))
    ([], [])).1

/-! ## Parser registry (src/parsers/parserRegistry.ts) -/

/-- The registered parser implementations. -/
inductive RegisteredParser where
  | typescript
  | python
  deriving DecidableEq

/-- The document surface the registry reads: a language identifier and
a file-system path. -/
structure TextDocument where
  languageId : String
  fsPath : String
  deriving DecidableEq

/-- The `parsers` map after `registerDefaultParsers`: the TypeScript
parser under its own id and the three JavaScript ids, then the Python
parser. -/
def parsersList : List (String × RegisteredParser) :=
  [("typescript", RegisteredParser.typescript),
   ("javascript", RegisteredParser.typescript),
   ("javascriptreact", RegisteredParser.typescript),
   ("typescriptreact", RegisteredParser.typescript),
   ("python", RegisteredParser.python)]

/-- The `extensionMap` after `registerDefaultParsers`: each registered
file extension points at a language id. -/
def extensionMapList : List (String × String) :=
  [(".ts", "typescript"), (".tsx", "typescript"), (".js", "typescript"),
   (".jsx", "typescript"), (".mjs", "typescript"), (".cjs", "typescript"),
   (".py", "python"), (".pyw", "python"), (".pyi", "python")]

/-- `ParserRegistry.getFileExtension`: the substring from the last dot
(inclusive), lowercased; empty when there is no dot. -/
def getFileExtension (filePath : String) : String :=
  match lastIndexOfChar '.' filePath.data with
  | none => ""
  | some lastDot => toLowerStr (String.mk (filePath.data.drop lastDot))

/-- `ParserRegistry.getParserByLanguageId`: direct map lookup. -/
def getParserByLanguageId (languageId : String) : Option RegisteredParser :=
  parsersList.lookup languageId

/-- `ParserRegistry.getParser`: lookup by language id, then by file
extension. -/
def getParser (document : TextDocument) : Option RegisteredParser :=
  match parsersList.lookup document.languageId with
  | some parser => some parser
  | none =>
    match extensionMapList.lookup (getFileExtension document.fsPath) with
    | some languageId => parsersList.lookup languageId
    | none => none

/-- `ParserRegistry.parseDocument`: an empty pair list when no parser
is registered, otherwise whatever the selected parser extracts (the
extraction behaviour is a parameter `run`; a thrown extraction error is
also caught and turned into the empty list, which the `run` parameter
subsumes). -/
def parseDocument {α : Type} (run : RegisteredParser → TextDocument → List α)
    (document : TextDocument) : List α :=
  match getParser document with
  | none => []
  | some parser => run parser document

/-! ## Spec-side definitions

These two definitions are written from the specification text, not from
the source, for comparison against the embedded code. -/

/-- The alias table exactly as the specification lists it:
string≈str, number≈int≈float≈integer, boolean≈bool, array≈list≈[],
object≈dict≈map≈record, any≈unknown, void≈none≈null≈undefined. -/
def specAliasClasses : List (List String) :=
  [["string", "str"],
   ["number", "int", "float", "integer"],
   ["boolean", "bool"],
   ["array", "list", "[]"],
   ["object", "dict", "map", "record"],
   ["any", "unknown"],
   ["void", "none", "null", "undefined"]]

/-- The specification's claimed type-equivalence test on normalized
type strings: identical, or both in one alias class of the
specification's table, or one contains the other. -/
def specTypesEquiv (a b : String) : Bool :=
  a == b
    || specAliasClasses.any (fun cls => cls.contains a && cls.contains b)
    || strIncludes a b || strIncludes b a

/-! ## Concrete scenario inputs -/

/-- The rename scenario's parsed documentation: a single documented
parameter `userId` of type `string` (the pair used by the spec's rename
scenario and the repository's own unit test). -/
def renameScenarioDoc : ParsedDoc :=
  { description := "Test function"
    params := [{ name := "userId", type := some "string",
                 description := "User ID", isOptional := false }]
    returns := none }

/-- The rename scenario's code signature: a single code parameter
`user_id` of type `string`. -/
def renameScenarioSig : CodeSignature :=
  { name := "test"
    parameters := [{ name := "user_id", type := some "string",
                     defaultValue := none, isOptional := false, isRest := false }]
    returnType := none }

/-- A type-mismatch scenario: the documentation declares `count` of
type `string`. -/
def mismatchScenarioDoc : ParsedDoc :=
  { description := ""
    params := [{ name := "count", type := some "string",
                 description := "", isOptional := false }]
    returns := none }

/-- The type-mismatch scenario's code signature: `count` of type
`number`. -/
def mismatchScenarioSig : CodeSignature :=
  { name := "f"
    parameters := [{ name := "count", type := some "number",
                     defaultValue := none, isOptional := false, isRest := false }]
    returnType := none }

/-- The recurrence that the `levenshteinDistance` table satisfies, with
strings read from their last characters inward (so the lists here are
the reversed prefixes of the two strings); used to specify the table. -/
def levRecur : List Char → List Char → Nat
  | [], ys => ys.length
  | x :: xs, [] => (x :: xs).length
  | x :: xs, y :: ys =>
    if x = y then
      levRecur xs ys
    else
      1 + min (levRecur xs (y :: ys)) (min (levRecur (x :: xs) ys) (levRecur xs ys))
termination_by xs ys => xs.length + ys.length
decreasing_by all_goals simp_arith

/-- Row `i` of the distance table as specified by the recurrence:
`xsR` is the reversed length-`i` prefix of `str1`, `pre` the prefix of
`str2` already accounted for, and the list holds the entries for `pre`
and each longer prefix obtained by consuming `ysRest`. -/
def rowSpec (xsR : List Char) : List Char → List Char → List Nat
  | pre, [] => [levRecur xsR pre.reverse]
  | pre, y :: ys => levRecur xsR pre.reverse :: rowSpec xsR (pre ++ [y]) ys

/-! ## Properties of the Levenshtein table -/

theorem rowSpec_headD (xsR pre ysRest : List Char) :
    (rowSpec xsR pre ysRest).headD 0 = levRecur xsR pre.reverse := by
  cases ysRest <;> simp [rowSpec]

theorem levRecur_cons_cons (x y : Char) (xs ys : List Char) :
    levRecur (x :: xs) (y :: ys) =
      if x = y then levRecur xs ys
      else 1 + min (levRecur xs (y :: ys))
        (min (levRecur (x :: xs) ys) (levRecur xs ys)) := by
  rw [levRecur]

theorem levRowAux_rowSpec (x : Char) (xsR : List Char) :
    ∀ (ysRest pre : List Char),
      levRecur (x :: xsR) pre.reverse ::
          levRowAux x ysRest (rowSpec xsR pre ysRest) (levRecur (x :: xsR) pre.reverse)
        = rowSpec (x :: xsR) pre ysRest := by
  intro ysRest
  induction ysRest with
  | nil => intro pre; simp [rowSpec, levRowAux]
  | cons y ys2 ih =>
    intro pre
    have hrev : (pre ++ [y]).reverse = y :: pre.reverse := by simp
    have hcur :
        (if x = y then levRecur xsR pre.reverse
          else 1 + min ((rowSpec xsR (pre ++ [y]) ys2).headD 0)
            (min (levRecur (x :: xsR) pre.reverse) (levRecur xsR pre.reverse)))
        = levRecur (x :: xsR) (pre ++ [y]).reverse := by
      rw [rowSpec_headD, hrev, levRecur_cons_cons]
    simp only [rowSpec, levRowAux]
    rw [hcur, ih (pre ++ [y])]

theorem foldl_levRows (ys : List Char) :
    ∀ (l xsR : List Char),
      l.foldl
        (fun (st : List Nat × Nat) x =>
          let i := st.2 + 1
          (i :: levRowAux x ys st.1 i, i))
        (rowSpec xsR [] ys, xsR.length)
      = (rowSpec (l.reverse ++ xsR) [] ys, l.length + xsR.length) := by
  intro l
  induction l with
  | nil => intro xsR; simp
  | cons x l2 ih =>
    intro xsR
    rw [List.foldl_cons]
    have hlen : xsR.length + 1 = levRecur (x :: xsR) ([] : List Char).reverse := by
      simp [levRecur]
    have hstep :
        (let i := (rowSpec xsR [] ys, xsR.length).2 + 1;
          (i :: levRowAux x ys (rowSpec xsR [] ys, xsR.length).1 i, i))
        = (rowSpec (x :: xsR) [] ys, (x :: xsR).length) := by
      show ((xsR.length + 1) :: levRowAux x ys (rowSpec xsR [] ys) (xsR.length + 1),
          xsR.length + 1) = _
      rw [hlen, levRowAux_rowSpec x xsR ys []]
      simp [levRecur]
    rw [hstep, ih (x :: xsR)]
    simp only [List.reverse_cons, List.append_assoc, List.singleton_append,
      List.length_cons]
    congr 1
    omega

theorem rowSpec_getLastD (xsR : List Char) :
    ∀ (ysRest pre : List Char) (d : Nat),
      (rowSpec xsR pre ysRest).getLastD d = levRecur xsR (pre ++ ysRest).reverse := by
  intro ysRest
  induction ysRest with
  | nil => intro pre d; simp [rowSpec]
  | cons y ys2 ih =>
    intro pre d
    rw [rowSpec, List.getLastD_cons, ih (pre ++ [y]), List.append_assoc]
    rfl

theorem rowSpec_nil_eq_range :
    ∀ (ysRest pre : List Char),
      rowSpec [] pre ysRest = (List.range (ysRest.length + 1)).map (fun k => pre.length + k) := by
  intro ysRest
  induction ysRest with
  | nil =>
    intro pre
    rw [show List.range (([] : List Char).length + 1) = [0] from rfl]
    simp [rowSpec, levRecur]
  | cons y ys2 ih =>
    intro pre
    rw [rowSpec, ih (pre ++ [y])]
    simp only [List.length_cons]
    rw [List.range_succ_eq_map (ys2.length + 1), List.map_cons, List.map_map]
    congr 1
    · simp [levRecur]
    · apply List.map_congr_left
      intro a _
      simp [Function.comp]
      omega

theorem levenshteinDistance_eq_levRecur (str1 str2 : String) :
    levenshteinDistance str1 str2 = levRecur str1.data.reverse str2.data.reverse := by
  unfold levenshteinDistance
  have hinit : List.range (str2.data.length + 1) = rowSpec [] [] str2.data := by
    rw [rowSpec_nil_eq_range str2.data []]
    simp
  simp only [hinit]
  have h0 : (0 : Nat) = ([] : List Char).length := rfl
  rw [h0, foldl_levRows str2.data str1.data [], List.append_nil]
  rw [rowSpec_getLastD str1.data.reverse str2.data []]
  rfl

theorem levRecur_eq_zero : ∀ xs ys : List Char, levRecur xs ys = 0 → xs = ys := by
  intro xs
  induction xs with
  | nil =>
    intro ys h
    rw [show levRecur [] ys = ys.length from by cases ys <;> simp [levRecur]] at h
    exact (List.length_eq_zero.mp h).symm
  | cons x xs2 ih =>
    intro ys h
    cases ys with
    | nil => rw [show levRecur (x :: xs2) [] = xs2.length + 1 from by simp [levRecur]] at h; omega
    | cons y ys2 =>
      rw [levRecur_cons_cons] at h
      by_cases hxy : x = y
      · rw [if_pos hxy] at h
        rw [hxy, ih ys2 h]
      · rw [if_neg hxy] at h
        omega

theorem levenshteinDistance_eq_zero {s1 s2 : String}
    (h : levenshteinDistance s1 s2 = 0) : s1 = s2 := by
  rw [levenshteinDistance_eq_levRecur] at h
  have h2 := levRecur_eq_zero _ _ h
  exact congrArg String.mk (List.reverse_injective h2)

/-! ## Properties of `findClosestMatch` -/

theorem closestFold_spec (t : String) :
    ∀ (l : List String) (m0 : String) (d0 : Nat),
      levenshteinDistance t m0 = d0 →
      levenshteinDistance t (l.foldl (closestStep t) (m0, d0)).1
          = (l.foldl (closestStep t) (m0, d0)).2 ∧
      (l.foldl (closestStep t) (m0, d0)).2 ≤ d0 ∧
      (∀ c ∈ l, (l.foldl (closestStep t) (m0, d0)).2 ≤ levenshteinDistance t c) ∧
      (l.foldl (closestStep t) (m0, d0) = (m0, d0) ∨
        ∃ pre post,
          l = pre ++ (l.foldl (closestStep t) (m0, d0)).1 :: post ∧
          (l.foldl (closestStep t) (m0, d0)).2 < d0 ∧
          ∀ b ∈ pre,
            (l.foldl (closestStep t) (m0, d0)).2 < levenshteinDistance t b) := by
  intro l
  induction l with
  | nil =>
    intro m0 d0 h0
    exact ⟨h0, le_refl _, by simp, Or.inl rfl⟩
  | cons c l2 ih =>
    intro m0 d0 h0
    rw [List.foldl_cons]
    by_cases hlt : levenshteinDistance t c < d0
    · rw [show closestStep t (m0, d0) c = (c, levenshteinDistance t c) from by
        simp [closestStep, hlt]]
      obtain ⟨ha, hb, hc, hd⟩ := ih c (levenshteinDistance t c) rfl
      refine ⟨ha, le_trans hb (le_of_lt hlt), ?_, ?_⟩
      · intro x hx
        rcases List.mem_cons.mp hx with h | h
        · rw [h]; exact hb
        · exact hc x h
      · rcases hd with h | ⟨pre, post, hEq, hLt, hPre⟩
        · refine Or.inr ⟨[], l2, ?_, ?_, by simp⟩
          · rw [h]; simp
          · rw [h]; exact hlt
        · refine Or.inr ⟨c :: pre, post, ?_, lt_trans hLt hlt, ?_⟩
          · rw [List.cons_append]; exact congrArg (List.cons c) hEq
          · intro b hb2
            rcases List.mem_cons.mp hb2 with h2 | h2
            · rw [h2]; exact hLt
            · exact hPre b h2
    · rw [show closestStep t (m0, d0) c = (m0, d0) from by simp [closestStep, hlt]]
      obtain ⟨ha, hb, hc, hd⟩ := ih m0 d0 h0
      refine ⟨ha, hb, ?_, ?_⟩
      · intro x hx
        rcases List.mem_cons.mp hx with h | h
        · rw [h]; exact le_trans hb (not_lt.mp hlt)
        · exact hc x h
      · rcases hd with h | ⟨pre, post, hEq, hLt, hPre⟩
        · exact Or.inl h
        · refine Or.inr ⟨c :: pre, post, ?_, hLt, ?_⟩
          · rw [List.cons_append]; exact congrArg (List.cons c) hEq
          · intro b hb2
            rcases List.mem_cons.mp hb2 with h2 | h2
            · rw [h2]; exact lt_of_lt_of_le hLt (not_lt.mp hlt)
            · exact hPre b h2

theorem findClosestMatch_none_iff (t : String) (cs : List String) :
    findClosestMatch t cs = none ↔ cs = [] := by
  cases cs <;> simp [findClosestMatch]

theorem findClosestMatch_min (t : String) (cs : List String) (m : String) (d : Nat)
    (h : findClosestMatch t cs = some (m, d)) :
    levenshteinDistance t m = d ∧
    (∀ c ∈ cs, d ≤ levenshteinDistance t c) ∧
    ∃ pre post, cs = pre ++ m :: post ∧
      ∀ b ∈ pre, d < levenshteinDistance t b := by
  cases cs with
  | nil => simp [findClosestMatch] at h
  | cons c rest =>
    rw [findClosestMatch, Option.some_inj] at h
    obtain ⟨ha, hb, hc, hd⟩ :=
      closestFold_spec t rest c (levenshteinDistance t c) rfl
    rw [h] at ha hb hc hd
    refine ⟨ha, ?_, ?_⟩
    · intro x hx
      rcases List.mem_cons.mp hx with h2 | h2
      · rw [h2]; exact hb
      · exact hc x h2
    · rcases hd with h2 | ⟨pre, post, hEq, hLt, hPre⟩
      · have hm : m = c := congrArg Prod.fst h2
        exact ⟨[], rest, by rw [hm]; rfl, by simp⟩
      · refine ⟨c :: pre, post, by
          rw [List.cons_append]; exact congrArg (List.cons c) hEq, ?_⟩
        intro b hb2
        rcases List.mem_cons.mp hb2 with h3 | h3
        · rw [h3]; exact hLt
        · exact hPre b h3

/-! ## Membership in the analyzer output -/

theorem docAbsent_mem (doc : ParsedDoc) (sig : CodeSignature) (docParam : DocParam)
    (r : DriftReason) (hmem : docParam ∈ doc.params)
    (hf : docAbsentReason (codeParamNamesOf sig) docParam = some r) :
    r ∈ analyzeParameters doc sig := by
  unfold analyzeParameters
  exact List.mem_append_left _
    (List.mem_append_left _ (List.mem_filterMap.mpr ⟨docParam, hmem, hf⟩))

theorem codeUndoc_mem (doc : ParsedDoc) (sig : CodeSignature)
    (codeParam : ParameterInfo) (r : DriftReason) (hmem : codeParam ∈ sig.parameters)
    (hf : codeUndocumentedReason (docParamNamesOf doc) codeParam = some r) :
    r ∈ analyzeParameters doc sig := by
  unfold analyzeParameters
  exact List.mem_append_left _
    (List.mem_append_right _ (List.mem_filterMap.mpr ⟨codeParam, hmem, hf⟩))

theorem typeMismatch_mem (doc : ParsedDoc) (sig : CodeSignature)
    (docParam : DocParam) (r : DriftReason) (hmem : docParam ∈ doc.params)
    (hf : typeMismatchReason sig docParam = some r) :
    r ∈ analyzeParameters doc sig := by
  unfold analyzeParameters
  exact List.mem_append_right _ (List.mem_filterMap.mpr ⟨docParam, hmem, hf⟩)

/-! ## Score weights -/

theorem baseWeight_nonneg (t : DriftType) : 0 ≤ baseWeight t := by
  cases t <;> norm_num [baseWeight]

theorem severityMultiplier_nonneg (s : DriftSeverity) : 0 ≤ severityMultiplier s := by
  cases s <;> norm_num [severityMultiplier]

theorem foldl_weight_sum (reasons : List DriftReason) :
    ∀ s : ℚ,
      reasons.foldl
        (fun score reason =>
          score + baseWeight reason.type * severityMultiplier reason.severity) s
      = s + (reasons.map
          (fun r => baseWeight r.type * severityMultiplier r.severity)).sum := by
  induction reasons with
  | nil => intro s; simp
  | cons r rs ih =>
    intro s
    rw [List.foldl_cons, ih, List.map_cons, List.sum_cons]
    ring

/-! ## Characterization of `typesMatch` -/

theorem typesMatch_eq_true_iff (a b : String) :
    typesMatch a b = true ↔
      a = b ∨ (∃ cls ∈ typeAliasClasses, a ∈ cls ∧ b ∈ cls) ∨
        strIncludes a b = true ∨ strIncludes b a = true := by
  unfold typesMatch
  split_ifs with h1 h2 h3
  · simp only [true_iff]
    exact Or.inl h1
  · simp only [true_iff]
    obtain ⟨cls, hcls, hab⟩ := List.any_eq_true.mp h2
    rw [Bool.and_eq_true] at hab
    refine Or.inr (Or.inl ⟨cls, hcls, ?_, ?_⟩)
    · have := hab.1; simpa using this
    · have := hab.2; simpa using this
  · simp only [true_iff]
    have h3b : strIncludes a b = true ∨ strIncludes b a = true := by simpa using h3
    rcases h3b with h | h
    · exact Or.inr (Or.inr (Or.inl h))
    · exact Or.inr (Or.inr (Or.inr h))
  · constructor
    · intro h; exact absurd h (by simp)
    · rintro (h | ⟨cls, hcls, ha, hb⟩ | h | h)
      · exact absurd h h1
      · exact absurd (List.any_eq_true.mpr ⟨cls, hcls, by simp [ha, hb]⟩) h2
      · exact absurd (by simp [h] : (strIncludes a b || strIncludes b a) = true) h3
      · exact absurd (by simp [h] : (strIncludes a b || strIncludes b a) = true) h3

theorem typesMatch_true_symm {a b : String} (h : typesMatch a b = true) :
    typesMatch b a = true := by
  rcases (typesMatch_eq_true_iff a b).mp h with h2 | ⟨cls, hcls, ha, hb⟩ | h2 | h2
  · exact (typesMatch_eq_true_iff b a).mpr (Or.inl h2.symm)
  · exact (typesMatch_eq_true_iff b a).mpr (Or.inr (Or.inl ⟨cls, hcls, hb, ha⟩))
  · exact (typesMatch_eq_true_iff b a).mpr (Or.inr (Or.inr (Or.inr h2)))
  · exact (typesMatch_eq_true_iff b a).mpr (Or.inr (Or.inr (Or.inl h2)))

/-! ## Claim theorems -/

/-- C5: for every list of drift reasons the computed drift score lies in
the interval [0, 1], and the empty reason list yields a score of
exactly 0. -/
theorem driftScore_bounds :
    (∀ reasons : List DriftReason,
      0 ≤ calculateDriftScore reasons ∧ calculateDriftScore reasons ≤ 1) ∧
    calculateDriftScore [] = 0 := by
  constructor
  · intro reasons
    unfold calculateDriftScore
    by_cases h : reasons.isEmpty
    · rw [if_pos h]
      norm_num
    · rw [if_neg h]
      have hsum : 0 ≤ reasons.foldl
          (fun score reason =>
            score + baseWeight reason.type * severityMultiplier reason.severity) 0 := by
        rw [foldl_weight_sum reasons 0, zero_add]
        apply List.sum_nonneg
        intro x hx
        obtain ⟨r, _, rfl⟩ := List.mem_map.mp hx
        exact mul_nonneg (baseWeight_nonneg _) (severityMultiplier_nonneg _)
      exact ⟨le_min (by norm_num) hsum, min_le_left _ _⟩
  · simp [calculateDriftScore]

/-- C2 counterexample: the claim orders the `ReturnTypeMismatch` base
weight directly below the parameter-family weights and above the
`SignatureChanged`/`CodeContentChanged` weight, but in the code the
signature-change weight (0.25) exceeds the return-type weight (0.2),
so a Medium `SignatureChanged` reason scores strictly more than a
Medium `ReturnTypeMismatch` reason. -/
theorem weightOrder_counterexample :
    baseWeight DriftType.returnTypeMismatch < baseWeight DriftType.signatureChanged ∧
    calculateDriftScore
        [{ type := DriftType.returnTypeMismatch, severity := DriftSeverity.medium,
           message := "", details := none }] <
      calculateDriftScore
        [{ type := DriftType.signatureChanged, severity := DriftSeverity.medium,
           message := "", details := none }] := by
  constructor
  · norm_num [baseWeight]
  · simp only [calculateDriftScore, List.foldl, baseWeight, severityMultiplier,
      List.isEmpty, min_def]
    norm_num

/-- C2 amended: the score is the severity-weighted sum of fixed base
weights clamped to 1; the parameter-family weight is strictly the
highest and uniform across the family, the
SignatureChanged/CodeContentChanged weight is next, the
ReturnTypeMismatch weight next, and the DescriptionMismatch weight is
the lowest; the severity multipliers are Critical 1.5, High 1.2,
Medium 1.0 and Low 0.5. -/
theorem driftScore_aggregation :
    (∀ reasons : List DriftReason,
      calculateDriftScore reasons =
        min 1 ((reasons.map
          (fun r => baseWeight r.type * severityMultiplier r.severity)).sum)) ∧
    baseWeight DriftType.parameterMismatch = baseWeight DriftType.parameterAdded ∧
    baseWeight DriftType.parameterAdded = baseWeight DriftType.parameterRemoved ∧
    baseWeight DriftType.parameterRemoved = baseWeight DriftType.parameterRenamed ∧
    baseWeight DriftType.signatureChanged = baseWeight DriftType.codeContentChanged ∧
    baseWeight DriftType.signatureChanged < baseWeight DriftType.parameterMismatch ∧
    baseWeight DriftType.returnTypeMismatch < baseWeight DriftType.signatureChanged ∧
    baseWeight DriftType.descriptionMismatch < baseWeight DriftType.returnTypeMismatch ∧
    severityMultiplier DriftSeverity.critical = 3/2 ∧
    severityMultiplier DriftSeverity.high = 6/5 ∧
    severityMultiplier DriftSeverity.medium = 1 ∧
    severityMultiplier DriftSeverity.low = 1/2 := by
  refine ⟨?_, by norm_num [baseWeight, severityMultiplier]⟩
  intro reasons
  cases reasons with
  | nil =>
    simp only [calculateDriftScore, List.isEmpty_nil, if_true, List.map_nil,
      List.sum_nil]
    rw [min_eq_right (by norm_num : (0:ℚ) ≤ 1)]
  | cons r rs =>
    unfold calculateDriftScore
    rw [if_neg (by simp), foldl_weight_sum (r :: rs) 0, zero_add]

/-- C10: the analyzer's type-equivalence test is symmetric. -/
theorem typesMatch_symm (a b : String) : typesMatch a b = typesMatch b a := by
  cases hab : typesMatch a b with
  | true => exact (typesMatch_true_symm hab).symm
  | false =>
    cases hba : typesMatch b a with
    | false => rfl
    | true => exact absurd (typesMatch_true_symm hba) (by rw [hab]; simp)

/-- C4 counterexample: the code's alias table places `object` in the
`any` class as well, so `typesMatch` accepts the pair (`any`,
`object`) that the claim's seven alias classes (with any≈unknown
only), identity and substring tests all reject. -/
theorem typesMatch_spec_counterexample :
    typesMatch "any" "object" = true ∧ specTypesEquiv "any" "object" = false := by
  exact ⟨by decide, by decide⟩

/-- C4 amended: the type-equivalence test succeeds exactly on identical
strings, on two members of one alias class of the code's table (whose
`any` class is {any, object, unknown}), or on substring containment
either way; and a documented/declared parameter type pair failing the
test yields a `ParameterMismatch` reason of severity Medium. -/
theorem typesMatch_characterization :
    (∀ a b : String, typesMatch a b = true ↔
      (a = b ∨ (∃ cls ∈ typeAliasClasses, a ∈ cls ∧ b ∈ cls) ∨
        strIncludes a b = true ∨ strIncludes b a = true)) ∧
    (∀ (doc : ParsedDoc) (sig : CodeSignature) (docParam : DocParam)
        (codeParam : ParameterInfo) (dt ct : String),
      docParam ∈ doc.params →
      sig.parameters.find? (fun p => toLowerStr p.name == toLowerStr docParam.name)
        = some codeParam →
      docParam.type = some dt → codeParam.type = some ct →
      dt ≠ "" → ct ≠ "" →
      typesMatch (normalizeWhitespace (toLowerStr dt))
          (normalizeWhitespace (toLowerStr ct)) = false →
      mismatchReason docParam.name dt ct ∈ analyzeParameters doc sig) := by
  constructor
  · exact typesMatch_eq_true_iff
  · intro doc sig docParam codeParam dt ct hmem hfind hdt hct hdtne hctne hmatch
    apply typeMismatch_mem doc sig docParam _ hmem
    simp [typeMismatchReason, hfind, hdt, hct, hdtne, hctne, hmatch]

/-- C4 witness: the pair documented `count : string` against code
`count : number` produces the `ParameterMismatch` reason. -/
theorem typesMatch_characterization_witness :
    mismatchReason "count" "string" "number" ∈
      analyzeParameters mismatchScenarioDoc mismatchScenarioSig := by
  exact typesMatch_characterization.2
    mismatchScenarioDoc mismatchScenarioSig
    { name := "count", type := some "string", description := "", isOptional := false }
    { name := "count", type := some "number", defaultValue := none,
      isOptional := false, isRest := false }
    "string" "number" (by decide) (by decide) rfl rfl (by decide) (by decide)
    (by decide)

/-- C3: every documented name (receivers excluded) absent from the code
name set yields either a Medium `ParameterRenamed` reason naming a code
name at minimal, nonzero Levenshtein distance at most 2, or, when
every code name is at distance greater than 2, a High
`ParameterRemoved` reason; and every code name (receivers excluded) of
length above 1 absent from the documented set yields a Medium
`ParameterAdded` reason. -/
theorem parameterAnalysis_spec (doc : ParsedDoc) (sig : CodeSignature) :
    (∀ docParam ∈ doc.params,
      toLowerStr docParam.name ∉ (["self", "cls"] : List String) →
      toLowerStr docParam.name ∉ codeParamNamesOf sig →
      ((∃ m ∈ codeParamNamesOf sig,
          levenshteinDistance (toLowerStr docParam.name) m ≤ 2 ∧
          levenshteinDistance (toLowerStr docParam.name) m ≠ 0 ∧
          (∀ c ∈ codeParamNamesOf sig,
            levenshteinDistance (toLowerStr docParam.name) m
              ≤ levenshteinDistance (toLowerStr docParam.name) c) ∧
          renamedReason docParam.name m ∈ analyzeParameters doc sig) ∨
        ((∀ c ∈ codeParamNamesOf sig,
            2 < levenshteinDistance (toLowerStr docParam.name) c) ∧
          removedReason docParam.name ∈ analyzeParameters doc sig))) ∧
    (∀ codeParam ∈ sig.parameters,
      toLowerStr codeParam.name ∉ (["self", "cls"] : List String) →
      toLowerStr codeParam.name ∉ docParamNamesOf doc →
      1 < codeParam.name.length →
      addedReason codeParam.name ∈ analyzeParameters doc sig) := by
  constructor
  · intro docParam hmem hself habs
    have hcontains1 :
        (["self", "cls"] : List String).contains (toLowerStr docParam.name) = false := by
      simp [hself]
    have hcontains2 :
        (codeParamNamesOf sig).contains (toLowerStr docParam.name) = false := by
      simp [habs]
    cases hC : findClosestMatch (toLowerStr docParam.name) (codeParamNamesOf sig) with
    | none =>
      right
      have hnil : codeParamNamesOf sig = [] := (findClosestMatch_none_iff _ _).mp hC
      constructor
      · intro c hc
        rw [hnil] at hc
        exact absurd hc (List.not_mem_nil c)
      · apply docAbsent_mem doc sig docParam _ hmem
        simp [docAbsentReason, hcontains1, hcontains2, hC, hself, habs]
    | some pair =>
      obtain ⟨m, d⟩ := pair
      obtain ⟨hlev, hmin, pre, post, hdecomp, _⟩ :=
        findClosestMatch_min _ _ _ _ hC
      have hm_mem : m ∈ codeParamNamesOf sig := by
        rw [hdecomp]
        exact List.mem_append_right _ (List.mem_cons_self _ _)
      by_cases hd2 : d ≤ 2
      · left
        have hne : levenshteinDistance (toLowerStr docParam.name) m ≠ 0 := by
          intro h0
          exact habs (levenshteinDistance_eq_zero h0 ▸ hm_mem)
        refine ⟨m, hm_mem, ?_, hne, ?_, ?_⟩
        · rw [hlev]; exact hd2
        · intro c hc
          rw [hlev]
          exact hmin c hc
        · apply docAbsent_mem doc sig docParam _ hmem
          simp [docAbsentReason, hcontains1, hcontains2, hC, hd2, hself, habs]
      · right
        constructor
        · intro c hc
          have := hmin c hc
          omega
        · apply docAbsent_mem doc sig docParam _ hmem
          simp [docAbsentReason, hcontains1, hcontains2, hC, hd2, hself, habs]
  · intro codeParam hmem hself habs hlen
    have h1 :
        (["self", "cls"] : List String).contains (toLowerStr codeParam.name) = false := by
      simp [hself]
    have h2 : (docParamNamesOf doc).contains (toLowerStr codeParam.name) = false := by
      simp [habs]
    apply codeUndoc_mem doc sig codeParam _ hmem
    simp [codeUndocumentedReason, h1, h2, hlen, hself, habs]

/-- C3 witness: in the rename scenario the documented `userId` is
absent from the code set and triggers the renamed branch. -/
theorem parameterAnalysis_spec_witness :
    (∃ m ∈ codeParamNamesOf renameScenarioSig,
        levenshteinDistance (toLowerStr "userId") m ≤ 2 ∧
        levenshteinDistance (toLowerStr "userId") m ≠ 0 ∧
        (∀ c ∈ codeParamNamesOf renameScenarioSig,
          levenshteinDistance (toLowerStr "userId") m
            ≤ levenshteinDistance (toLowerStr "userId") c) ∧
        renamedReason "userId" m
          ∈ analyzeParameters renameScenarioDoc renameScenarioSig) ∨
      ((∀ c ∈ codeParamNamesOf renameScenarioSig,
          2 < levenshteinDistance (toLowerStr "userId") c) ∧
        removedReason "userId"
          ∈ analyzeParameters renameScenarioDoc renameScenarioSig) := by
  exact (parameterAnalysis_spec renameScenarioDoc renameScenarioSig).1
    { name := "userId", type := some "string", description := "User ID",
      isOptional := false }
    (by decide) (by decide) (by decide)

/-- C1 counterexample: in the rename scenario (documented `userId`,
code `user_id`) parameter analysis does emit a `ParameterAdded` reason
for `user_id`, contrary to the claim that no such reason is emitted for
that name: the renamed code parameter is still counted as
undocumented by the second loop. -/
theorem renameScenario_counterexample :
    addedReason "user_id" ∈ analyzeParameters renameScenarioDoc renameScenarioSig := by
  decide

/-- C1 amended: in the rename scenario parameter analysis emits exactly
one `ParameterRenamed` reason naming `user_id` and no
`ParameterRemoved` reason, but also exactly one `ParameterAdded` reason
for `user_id`: the full output is the renamed reason followed by the
added reason. -/
theorem renameScenario_output :
    analyzeParameters renameScenarioDoc renameScenarioSig =
      [renamedReason "userId" "user_id", addedReason "user_id"] := by
  decide

set_option maxRecDepth 100000 in
/-- C6 counterexample: two declaration texts that differ only in
whitespace are equal after whitespace normalization, yet signature
extraction hashes the raw text, so their stored hashes differ (in both
the TypeScript and the Python extractor). -/
theorem signatureHash_counterexample :
    normalizeWhitespace "function test(a) {}"
        = normalizeWhitespace "function  test(a) {}" ∧
    tsSignatureHash "function test(a) {}" ≠ tsSignatureHash "function  test(a) {}" ∧
    pySignatureHash "function test(a) {}" ≠ pySignatureHash "function  test(a) {}" := by
  exact ⟨by decide, by decide, by decide⟩

set_option maxRecDepth 100000 in
/-- C6 amended: the content hash stored in an extracted code signature
is computed over the raw declaration text: equal raw texts produce
equal hash values, while texts that are equal only after whitespace
normalization can hash differently. -/
theorem signatureHash_raw_content :
    (∀ t1 t2 : String, t1 = t2 →
      tsSignatureHash t1 = tsSignatureHash t2 ∧
      pySignatureHash t1 = pySignatureHash t2) ∧
    ∃ t1 t2 : String,
      normalizeWhitespace t1 = normalizeWhitespace t2 ∧
      tsSignatureHash t1 ≠ tsSignatureHash t2 := by
  constructor
  · intro t1 t2 h
    rw [h]
    exact ⟨rfl, rfl⟩
  · exact ⟨"function test(a) {}", "function  test(a) {}", by decide, by decide⟩

set_option maxRecDepth 100000 in
/-- C6 witness: the amended hash-equality statement at one concrete
declaration text. -/
theorem signatureHash_raw_content_witness :
    tsSignatureHash "def f(x):" = tsSignatureHash "def f(x):" ∧
    pySignatureHash "def f(x):" = pySignatureHash "def f(x):" :=
  signatureHash_raw_content.1 "def f(x):" "def f(x):" rfl

/-- C7: Go signature extraction of the grouped parameter declaration
`a, b int, c string` yields exactly three parameters in textual order,
with the shared type applied to each name of the group; likewise for
`x, y float64, z error`. -/
theorem goGroupedParams :
    parseGoParams "a, b int, c string" =
      [{ name := "a", type := "int" }, { name := "b", type := "int" },
       { name := "c", type := "string" }] ∧
    parseGoParams "x, y float64, z error" =
      [{ name := "x", type := "float64" }, { name := "y", type := "float64" },
       { name := "z", type := "error" }] := by
  exact ⟨by decide, by decide⟩

/-- C8: for a document whose language identifier has no registered
parser and whose file extension is not registered either, the registry
lookups return no parser and scanning the document yields the empty
pair list, whatever the per-parser extraction behaviour is. -/
theorem unknownLanguage_empty (doc : TextDocument)
    (h1 : parsersList.lookup doc.languageId = none)
    (h2 : extensionMapList.lookup (getFileExtension doc.fsPath) = none) :
    getParserByLanguageId doc.languageId = none ∧
    getParser doc = none ∧
    ∀ (α : Type) (run : RegisteredParser → TextDocument → List α),
      parseDocument run doc = [] := by
  have hg : getParser doc = none := by
    simp [getParser, h1, h2]
  refine ⟨h1, hg, ?_⟩
  intro α run
  simp [parseDocument, hg]

/-- C8 witness: a COBOL document with a `.cob` path hits no registered
parser and scans to the empty list. -/
theorem unknownLanguage_empty_witness :
    getParserByLanguageId "cobol" = none ∧
    getParser { languageId := "cobol", fsPath := "report.cob" } = none ∧
    parseDocument (fun _ _ => ([42] : List Nat))
      { languageId := "cobol", fsPath := "report.cob" } = [] := by
  have h := unknownLanguage_empty
    { languageId := "cobol", fsPath := "report.cob" } (by decide) (by decide)
  exact ⟨h.1, h.2.1, h.2.2 Nat (fun _ _ => [42])⟩

/-- C9: `findClosestMatch` returns `null` exactly on the empty
candidate list, and otherwise a candidate at minimal Levenshtein
distance to the target; every candidate listed earlier is at strictly
greater distance, so ties go to the earliest candidate. -/
theorem findClosestMatch_correct (t : String) (cs : List String) :
    (findClosestMatch t cs = none ↔ cs = []) ∧
    ∀ m d, findClosestMatch t cs = some (m, d) →
      levenshteinDistance t m = d ∧
      (∀ c ∈ cs, d ≤ levenshteinDistance t c) ∧
      ∃ pre post, cs = pre ++ m :: post ∧
        ∀ b ∈ pre, d < levenshteinDistance t b := by
  exact ⟨findClosestMatch_none_iff t cs,
    fun m d h => findClosestMatch_min t cs m d h⟩

/-- C9 witness: over the candidates `flag` and `user_id`, the match for
`userid` is `user_id` at distance 1, minimal over the list, with the
earlier candidate strictly farther. -/
theorem findClosestMatch_correct_witness :
    levenshteinDistance "userid" "user_id" = 1 ∧
    (∀ c ∈ (["flag", "user_id"] : List String),
      1 ≤ levenshteinDistance "userid" c) ∧
    ∃ pre post, (["flag", "user_id"] : List String) = pre ++ "user_id" :: post ∧
      ∀ b ∈ pre, 1 < levenshteinDistance "userid" b := by
  exact (findClosestMatch_correct "userid" ["flag", "user_id"]).2 "user_id" 1
    (by decide)

end DriftSpec
